import Mathlib

/-!
A shallow embedding of the physics/collision core of the `gmtk2021` game
(`src/game.rs`): 2D vector primitives, the circle body ("Ball") with its
segment collision detection and integration step, the chain-coupled player
("Player"), and the simulation driver ("Game") with its input intents.

Floating-point (`f32`) arithmetic is modelled over `ℝ`.  Rendering, asset
and camera state is omitted; of the draw pass only its one mutation of the
player state (the held-ball position reset) is kept.
-/

/-- 2D vector of reals, modelling `Vec2<f32>`. -/
@[ext] structure Vec2 where
  x : ℝ
  y : ℝ

namespace Vec2

def add (a b : Vec2) : Vec2 := ⟨a.x + b.x, a.y + b.y⟩

instance : Add Vec2 := ⟨add⟩

def sub (a b : Vec2) : Vec2 := ⟨a.x - b.x, a.y - b.y⟩

instance : Sub Vec2 := ⟨sub⟩

def neg (a : Vec2) : Vec2 := ⟨-a.x, -a.y⟩

instance : Neg Vec2 := ⟨neg⟩

/-- Scalar multiplication, modelling `Vec2 * f32`. -/
def smul (c : ℝ) (v : Vec2) : Vec2 := ⟨c * v.x, c * v.y⟩

instance : SMul ℝ Vec2 := ⟨smul⟩

/-- `Vec2::dot`. -/
def dot (a b : Vec2) : ℝ := a.x * b.x + a.y * b.y

/-- `Vec2::len`. -/
noncomputable def len (v : Vec2) : ℝ := Real.sqrt (v.x ^ 2 + v.y ^ 2)

/-- `Vec2::normalize`: `self / self.len()`. -/
noncomputable def normalize (v : Vec2) : Vec2 := ⟨v.x / v.len, v.y / v.len⟩

/-- `Vec2::rotate_90`: counterclockwise quarter turn. -/
def rotate90 (v : Vec2) : Vec2 := ⟨-v.y, v.x⟩

/-- `Vec2::rotated`: counterclockwise rotation by an angle. -/
noncomputable def rotated (v : Vec2) (a : ℝ) : Vec2 :=
  ⟨v.x * Real.cos a - v.y * Real.sin a, v.x * Real.sin a + v.y * Real.cos a⟩

@[simp] lemma add_x (a b : Vec2) : (a + b).x = a.x + b.x := rfl
@[simp] lemma add_y (a b : Vec2) : (a + b).y = a.y + b.y := rfl
@[simp] lemma sub_x (a b : Vec2) : (a - b).x = a.x - b.x := rfl
@[simp] lemma sub_y (a b : Vec2) : (a - b).y = a.y - b.y := rfl
@[simp] lemma neg_x (a : Vec2) : (-a).x = -a.x := rfl
@[simp] lemma neg_y (a : Vec2) : (-a).y = -a.y := rfl
@[simp] lemma smul_x (c : ℝ) (v : Vec2) : (c • v).x = c * v.x := rfl
@[simp] lemma smul_y (c : ℝ) (v : Vec2) : (c • v).y = c * v.y := rfl
@[simp] lemma mk_x (a b : ℝ) : (Vec2.mk a b).x = a := rfl
@[simp] lemma mk_y (a b : ℝ) : (Vec2.mk a b).y = b := rfl
@[simp] lemma mk_add_mk (a b c d : ℝ) : (⟨a, b⟩ + ⟨c, d⟩ : Vec2) = ⟨a + c, b + d⟩ := rfl
@[simp] lemma mk_sub_mk (a b c d : ℝ) : (⟨a, b⟩ - ⟨c, d⟩ : Vec2) = ⟨a - c, b - d⟩ := rfl
@[simp] lemma neg_mk (a b : ℝ) : (-(⟨a, b⟩ : Vec2)) = ⟨-a, -b⟩ := rfl
@[simp] lemma smul_mk (c a b : ℝ) : c • (⟨a, b⟩ : Vec2) = ⟨c * a, c * b⟩ := rfl
@[simp] lemma dot_mk (a b c d : ℝ) : Vec2.dot ⟨a, b⟩ ⟨c, d⟩ = a * c + b * d := rfl
@[simp] lemma rotate90_mk (a b : ℝ) : Vec2.rotate90 ⟨a, b⟩ = ⟨-b, a⟩ := rfl
@[simp] lemma len_mk (a b : ℝ) : Vec2.len ⟨a, b⟩ = Real.sqrt (a ^ 2 + b ^ 2) := rfl
@[simp] lemma normalize_mk (a b : ℝ) :
    Vec2.normalize ⟨a, b⟩ =
      ⟨a / Real.sqrt (a ^ 2 + b ^ 2), b / Real.sqrt (a ^ 2 + b ^ 2)⟩ := rfl
@[simp] lemma rotated_mk (a b t : ℝ) :
    Vec2.rotated ⟨a, b⟩ t =
      ⟨a * Real.cos t - b * Real.sin t, a * Real.sin t + b * Real.cos t⟩ := rfl

lemma len_nonneg (v : Vec2) : 0 ≤ v.len := Real.sqrt_nonneg _

lemma len_smul (c : ℝ) (v : Vec2) : (c • v).len = |c| * v.len := by
  unfold len
  show Real.sqrt ((c * v.x) ^ 2 + (c * v.y) ^ 2) = _
  rw [show (c * v.x) ^ 2 + (c * v.y) ^ 2 = c ^ 2 * (v.x ^ 2 + v.y ^ 2) by ring,
    Real.sqrt_mul (sq_nonneg c), Real.sqrt_sq_eq_abs]

lemma dot_self_nonneg (v : Vec2) : 0 ≤ dot v v := by
  unfold dot; nlinarith [sq_nonneg v.x, sq_nonneg v.y]

lemma normalize_eq_smul (v : Vec2) : v.normalize = v.len⁻¹ • v := by
  unfold normalize
  ext <;> simp [div_eq_inv_mul]

end Vec2

/-- `const EPS` (declared in the source; unused by the core logic). -/
noncomputable def EPS : ℝ := 1e-5

/-- `const GRAVITY`. -/
noncomputable def GRAVITY : ℝ := 50

/-- `const BALL_SWING_DISTANCE`. -/
noncomputable def BALL_SWING_DISTANCE : ℝ := 0.8

/-- `type Segment = [Vec2<f32>; 2]`. -/
def Segment : Type := Vec2 × Vec2

/-- The `Collision` contact record: a normal and a penetration depth. -/
structure Collision where
  normal : Vec2
  penetration : ℝ

/-- The circle body `Ball`: position, velocity, radius, grounded flag. -/
structure Ball where
  pos : Vec2
  vel : Vec2
  size : ℝ
  stand : Bool

namespace Ball

/-- `Ball::new`. -/
def new (pos : Vec2) (size : ℝ) : Ball :=
  { pos := pos, size := size, vel := ⟨0, 0⟩, stand := false }

/-- `Ball::collide`: circle-vs-segment contact query. -/
noncomputable def collide (self : Ball) (seg : Segment) : Option Collision :=
  let p1 := seg.1
  let p2 := seg.2
  let v := p2 - p1
  if Vec2.dot v (self.pos - p1) < 0 then
    let n := self.pos - p1
    let penetration := self.size - n.len
    if penetration > 0 then some ⟨n.normalize, penetration⟩ else none
  else if Vec2.dot (-v) (self.pos - p2) < 0 then
    let n := self.pos - p2
    let penetration := self.size - n.len
    if penetration > 0 then some ⟨n.normalize, penetration⟩ else none
  else
    let n := Vec2.rotate90 v.normalize
    let distance := Vec2.dot n (self.pos - p1)
    if distance > 0 ∧ distance < self.size then
      some ⟨n, self.size - distance⟩
    else if distance < 0 ∧ distance > -self.size then
      some ⟨-n, self.size - -distance⟩
    else none

/-- The body of `Ball::update`'s per-segment loop: resolve one contact. -/
noncomputable def resolveSegment (self : Ball) (seg : Segment) : Ball :=
  match self.collide seg with
  | none => self
  | some collision =>
    let self := { self with pos := self.pos + collision.penetration • collision.normal }
    let relative_vel := Vec2.dot collision.normal self.vel
    if relative_vel < 0 then
      { self with
        stand := if collision.normal.y > |collision.normal.x| * 2 then true else self.stand,
        vel := self.vel - relative_vel • collision.normal }
    else self

/-- `Ball::update`: gravity/velocity integration, then sequential contact
resolution against every level segment. -/
noncomputable def update (self : Ball) (level : List Segment) (delta_time : ℝ) : Ball :=
  let self :=
    if self.stand = false then
      let vel : Vec2 := ⟨self.vel.x, self.vel.y - GRAVITY * delta_time⟩
      { self with vel := vel, pos := self.pos + delta_time • vel }
    else
      { self with vel := ⟨0, 0⟩ }
  level.foldl resolveSegment self

end Ball

/-- The chain-coupled `Player`: a character body, a ball body, the held
flag (`ball_in_hands`) and the chain length. -/
structure Player where
  character : Ball
  ball : Ball
  ball_in_hands : Bool
  chain_len : ℝ

namespace Player

/-- `Player::new`. -/
noncomputable def new : Player :=
  { character := Ball.new ⟨0, 0⟩ 1
    ball := Ball.new ⟨0, 0⟩ 0.5
    ball_in_hands := true
    chain_len := 1 }

/-- The chain-pull phase of `Player::update`: when the ball is farther than
the chain length, drag the character toward the ball by the excess. -/
noncomputable def chainPull (self : Player) : Player :=
  let delta_pos := self.ball.pos - self.character.pos
  if delta_pos.len > self.chain_len then
    { self with character := { self.character with
        pos := self.character.pos + (delta_pos.len - self.chain_len) • delta_pos.normalize } }
  else self

/-- `Player::update`: held-ball position override or released-ball physics
with chain decay/retrieval and chain pull, then the character's own step. -/
noncomputable def update (self : Player) (level : List Segment) (delta_time : ℝ) : Player :=
  let self :=
    if self.ball_in_hands then
      { self with ball := { self.ball with
          pos := self.character.pos + BALL_SWING_DISTANCE • self.ball.vel.normalize } }
    else
      let self := { self with ball := self.ball.update level delta_time }
      let self :=
        if self.ball.stand then
          let chain_len := self.chain_len - 5 * delta_time
          if chain_len < 0.1 then
            { self with chain_len := 0.1, ball_in_hands := true }
          else
            { self with chain_len := chain_len }
        else self
      self.chainPull
  { self with character := self.character.update level delta_time }

end Player

/-- `const STEPS`: sub-steps per frame. -/
def STEPS : ℕ := 100

/-- The simulation-relevant state of `Game` (rendering fields omitted). -/
structure Game where
  time : ℝ
  player : Player
  save : Option Player
  level : List Segment
  spin : Bool

/-- The input intents consumed by `Game::handle_event`. -/
inductive Intent where
  | mouseDownLeft
  | mouseUpLeft
  | keyW
  | keyP
  | keyL
  | keyR
  | unhandled

namespace Game

/-- The player reached after the optional S-key chain shortening and `k`
sub-steps of one `Game::update` frame. -/
noncomputable def substeppedPlayer (self : Game) (delta_time : ℝ) (s_pressed : Bool)
    (k : ℕ) : Player :=
  (fun p => Player.update p self.level (delta_time / (STEPS : ℝ)))^[k]
    (if s_pressed then
      { self.player with chain_len := max (self.player.chain_len - 2 * delta_time) 0.05 }
     else self.player)

/-- `Game::update`: advance time, optionally shorten the chain while the S
key is held, run the fixed sub-step loop, then (if held) write the
time-driven swing velocity into the ball. -/
noncomputable def update (self : Game) (delta_time : ℝ) (s_pressed : Bool) : Game :=
  let self := { self with time := self.time + delta_time }
  let self := { self with player := self.substeppedPlayer delta_time s_pressed STEPS }
  if self.player.ball_in_hands then
    { self with player := { self.player with ball := { self.player.ball with
        vel := Vec2.rotated ⟨25, 0⟩ (self.time * 15) } } }
  else self

/-- `Game::handle_event`, one case per consumed input intent. -/
noncomputable def applyIntent (self : Game) (intent : Intent) : Game :=
  match intent with
  | .mouseDownLeft => { self with spin := true }
  | .mouseUpLeft =>
    let self := { self with spin := false }
    let self :=
      if self.player.ball_in_hands then
        { self with player := { self.player with
            ball_in_hands := false
            ball := { self.player.ball with
              vel := Vec2.rotate90 self.player.ball.vel
              stand := false }
            chain_len := 1 } }
      else self
    { self with player := { self.player with chain_len := 2 } }
  | .keyP => { self with save := some self.player }
  | .keyL =>
    match self.save with
    | some save => { self with player := save }
    | none => self
  | .keyR => { self with player := Player.new }
  | _ => self

/-- The one player-state mutation of `Game::draw`: while held and not
spinning, the ball is drawn (and stored) just above the character. -/
noncomputable def draw (self : Game) : Game :=
  if self.spin = false ∧ self.player.ball_in_hands then
    { self with player := { self.player with ball := { self.player.ball with
        pos := self.player.character.pos + (⟨0, 1⟩ : Vec2) } } }
  else self

end Game

/-! ## Theorems -/

section Claims

lemma dot_endpoint_shift (p1 p2 c : Vec2) :
    Vec2.dot (p2 - p1) (c - p1) =
      -Vec2.dot (-(p2 - p1)) (c - p2) + Vec2.dot (p2 - p1) (p2 - p1) := by
  unfold Vec2.dot
  simp only [Vec2.sub_x, Vec2.sub_y, Vec2.neg_x, Vec2.neg_y]
  ring

/-- C1: `Ball::collide` matches the specified case analysis: an endpoint
contact (normal `normalize(c - pᵢ)`, penetration `r - |c - pᵢ|`) exactly
when the projection of `c - pᵢ` onto the segment direction (resp. its
negation) is negative and `|c - pᵢ| < r`; a perpendicular-line contact
(normal `±n`, penetration `r - |d|`) exactly when both projections are
non-negative and `0 < |d| < r`; no contact at `d = 0`; and no contact
whenever no branch yields a positive penetration. -/
theorem collide_matches_spec (b : Ball) (p1 p2 : Vec2) :
    (Vec2.dot (p2 - p1) (b.pos - p1) < 0 →
      b.collide (p1, p2) =
        if (b.pos - p1).len < b.size then
          some ⟨(b.pos - p1).normalize, b.size - (b.pos - p1).len⟩
        else none)
    ∧
    (Vec2.dot (-(p2 - p1)) (b.pos - p2) < 0 →
      b.collide (p1, p2) =
        if (b.pos - p2).len < b.size then
          some ⟨(b.pos - p2).normalize, b.size - (b.pos - p2).len⟩
        else none)
    ∧
    (0 ≤ Vec2.dot (p2 - p1) (b.pos - p1) →
     0 ≤ Vec2.dot (-(p2 - p1)) (b.pos - p2) →
      (0 < Vec2.dot (Vec2.rotate90 (p2 - p1).normalize) (b.pos - p1) ∧
          Vec2.dot (Vec2.rotate90 (p2 - p1).normalize) (b.pos - p1) < b.size →
        b.collide (p1, p2) =
          some ⟨Vec2.rotate90 (p2 - p1).normalize,
            b.size - Vec2.dot (Vec2.rotate90 (p2 - p1).normalize) (b.pos - p1)⟩)
      ∧
      (-b.size < Vec2.dot (Vec2.rotate90 (p2 - p1).normalize) (b.pos - p1) ∧
          Vec2.dot (Vec2.rotate90 (p2 - p1).normalize) (b.pos - p1) < 0 →
        b.collide (p1, p2) =
          some ⟨-Vec2.rotate90 (p2 - p1).normalize,
            b.size - |Vec2.dot (Vec2.rotate90 (p2 - p1).normalize) (b.pos - p1)|⟩)
      ∧
      (Vec2.dot (Vec2.rotate90 (p2 - p1).normalize) (b.pos - p1) = 0 →
        b.collide (p1, p2) = none))
    ∧
    (∀ col, b.collide (p1, p2) = some col → 0 < col.penetration) := by
  refine ⟨?_, ?_, ?_, ?_⟩
  · intro h
    unfold Ball.collide
    simp only
    rw [if_pos h]
    by_cases hlt : (b.pos - p1).len < b.size
    · rw [if_pos (by linarith : b.size - (b.pos - p1).len > 0), if_pos hlt]
    · rw [if_neg (by simp only [gt_iff_lt, sub_pos]; exact hlt), if_neg hlt]
  · intro h
    have hskip : ¬ Vec2.dot (p2 - p1) (b.pos - p1) < 0 := by
      rw [dot_endpoint_shift]
      have := Vec2.dot_self_nonneg (p2 - p1)
      linarith
    unfold Ball.collide
    simp only
    rw [if_neg hskip, if_pos h]
    by_cases hlt : (b.pos - p2).len < b.size
    · rw [if_pos (by linarith : b.size - (b.pos - p2).len > 0), if_pos hlt]
    · rw [if_neg (by simp only [gt_iff_lt, sub_pos]; exact hlt), if_neg hlt]
  · intro h1 h2
    unfold Ball.collide
    simp only
    rw [if_neg (not_lt.mpr h1), if_neg (not_lt.mpr h2)]
    refine ⟨?_, ?_, ?_⟩
    · intro hd
      rw [if_pos ⟨hd.1, hd.2⟩]
    · intro hd
      rw [if_neg (by intro hc; linarith [hc.1]), if_pos ⟨hd.2, hd.1⟩,
        abs_of_neg hd.2]
    · intro hd
      rw [if_neg (by intro hc; linarith [hc.1]), if_neg (by intro hc; linarith [hc.1])]
  · intro col hcol
    unfold Ball.collide at hcol
    simp only at hcol
    split_ifs at hcol
    all_goals cases hcol
    all_goals dsimp only
    all_goals linarith

/-- Witness for C1 at a concrete endpoint-contact input. -/
theorem collide_matches_spec_w :
    Vec2.dot ((⟨2, 0⟩ : Vec2) - ⟨1, 0⟩) ((Ball.new ⟨0, 0⟩ 2).pos - ⟨1, 0⟩) < 0 ∧
    Ball.collide (Ball.new ⟨0, 0⟩ 2) (⟨1, 0⟩, ⟨2, 0⟩) =
      if ((Ball.new ⟨0, 0⟩ 2).pos - ⟨1, 0⟩).len < (Ball.new ⟨0, 0⟩ 2).size then
        some ⟨((Ball.new ⟨0, 0⟩ 2).pos - ⟨1, 0⟩).normalize,
          (Ball.new ⟨0, 0⟩ 2).size - ((Ball.new ⟨0, 0⟩ 2).pos - ⟨1, 0⟩).len⟩
      else none := by
  have h : Vec2.dot ((⟨2, 0⟩ : Vec2) - ⟨1, 0⟩) ((Ball.new ⟨0, 0⟩ 2).pos - ⟨1, 0⟩) < 0 := by
    norm_num [Ball.new, Vec2.dot]
  exact ⟨h, (collide_matches_spec (Ball.new ⟨0, 0⟩ 2) ⟨1, 0⟩ ⟨2, 0⟩).1 h⟩

end Claims

lemma sqrt_num_eval {a b : ℝ} (hb : 0 ≤ b) (h : b ^ 2 = a) : Real.sqrt a = b := by
  subst h; exact Real.sqrt_sq hb

lemma sqrt_four : Real.sqrt 4 = 2 := sqrt_num_eval (by norm_num) (by norm_num)

/-- Shared evaluation: a radius-`1/2` circle centred at `(0, 2/5)` against
the flat segment `(-1,0)–(1,0)` yields an upward contact of depth `1/10`. -/
lemma collide_flat_eval :
    Ball.collide ⟨⟨0, 2/5⟩, ⟨0, 5⟩, 1/2, false⟩ ((⟨-1, 0⟩, ⟨1, 0⟩) : Segment) =
      some ⟨⟨0, 1⟩, 1/10⟩ := by
  simp only [Ball.collide]
  norm_num [sqrt_four]

/-- C2 (amended): when resolving one contact, the grounded flag is set to
true iff the body is moving into the surface (`dot(normal, vel) < 0`) and
the contact normal is near-horizontal (`normal.y > |normal.x| * 2`);
otherwise the flag keeps its previous value. -/
theorem resolve_sets_stand (b : Ball) (seg : Segment) (c : Collision)
    (h : b.collide seg = some c) :
    ((b.resolveSegment seg).stand = true ↔
      (Vec2.dot c.normal b.vel < 0 ∧ |c.normal.x| * 2 < c.normal.y) ∨ b.stand = true) := by
  unfold Ball.resolveSegment
  rw [h]
  dsimp only
  by_cases hrel : Vec2.dot c.normal b.vel < 0
  · rw [if_pos hrel]
    dsimp only
    by_cases hn : c.normal.y > |c.normal.x| * 2
    · rw [if_pos hn]
      simp [hrel, hn]
    · rw [if_neg hn]
      simp only [gt_iff_lt] at hn
      simp [hrel, hn]
  · rw [if_neg hrel]
    simp [hrel]

/-- Witness for C2's amended theorem at a concrete contact. -/
theorem resolve_sets_stand_w :
    Ball.collide ⟨⟨0, 2/5⟩, ⟨0, 5⟩, 1/2, false⟩ ((⟨-1, 0⟩, ⟨1, 0⟩) : Segment) =
        some ⟨⟨0, 1⟩, 1/10⟩ ∧
    ((Ball.resolveSegment ⟨⟨0, 2/5⟩, ⟨0, 5⟩, 1/2, false⟩ (⟨-1, 0⟩, ⟨1, 0⟩)).stand = true ↔
      (Vec2.dot (⟨0, 1⟩ : Vec2) (⟨0, 5⟩ : Vec2) < 0 ∧
        |(⟨0, 1⟩ : Vec2).x| * 2 < (⟨0, 1⟩ : Vec2).y) ∨ (false = true)) :=
  ⟨collide_flat_eval,
    resolve_sets_stand ⟨⟨0, 2/5⟩, ⟨0, 5⟩, 1/2, false⟩ (⟨-1, 0⟩, ⟨1, 0⟩) ⟨⟨0, 1⟩, 1/10⟩
      collide_flat_eval⟩

/-- Counterexample to C2 as stated: during one integrator step a contact
with near-horizontal normal `(0, 1)` is produced and resolved (the body is
pushed out to `(0, 1/2)`), yet the grounded flag stays false because the
body is moving away from the surface (relative velocity `5 ≥ 0`). -/
theorem grounded_ignores_velocity_cex :
    (Ball.update ⟨⟨0, 7/20⟩, ⟨0, 11/2⟩, 1/2, false⟩ [(⟨-1, 0⟩, ⟨1, 0⟩)] (1/100)).stand = false
    ∧ Ball.collide ⟨⟨0, 2/5⟩, ⟨0, 5⟩, 1/2, false⟩ ((⟨-1, 0⟩, ⟨1, 0⟩) : Segment) =
        some ⟨⟨0, 1⟩, 1/10⟩
    ∧ ((⟨0, 1⟩ : Vec2).y > |(⟨0, 1⟩ : Vec2).x| * 2)
    ∧ (Ball.update ⟨⟨0, 7/20⟩, ⟨0, 11/2⟩, 1/2, false⟩ [(⟨-1, 0⟩, ⟨1, 0⟩)] (1/100)).pos
        = ⟨0, 1/2⟩ := by
  have hupd : Ball.update ⟨⟨0, 7/20⟩, ⟨0, 11/2⟩, 1/2, false⟩ [(⟨-1, 0⟩, ⟨1, 0⟩)] (1/100)
      = ⟨⟨0, 1/2⟩, ⟨0, 5⟩, 1/2, false⟩ := by
    simp only [Ball.update, List.foldl]
    norm_num [GRAVITY, Ball.resolveSegment, collide_flat_eval]
  refine ⟨by rw [hupd], collide_flat_eval, by norm_num, by rw [hupd]⟩

lemma sqrt_nine : Real.sqrt 9 = 3 := sqrt_num_eval (by norm_num) (by norm_num)

lemma sqrt_inv_forty_thousand : Real.sqrt (1/40000) = 1/200 :=
  sqrt_num_eval (by norm_num) (by norm_num)

lemma sqrt_forty_thousand : Real.sqrt 40000 = 200 :=
  sqrt_num_eval (by norm_num) (by norm_num)

lemma sub_add_excess_smul (bp cp : Vec2) (L : ℝ) (h : (bp - cp).len ≠ 0) :
    bp - (cp + ((bp - cp).len - L) • (bp - cp).normalize) =
      (L / (bp - cp).len) • (bp - cp) := by
  rw [Vec2.normalize_eq_smul]
  ext
  · simp only [Vec2.sub_x, Vec2.add_x, Vec2.smul_x]
    field_simp
    ring
  · simp only [Vec2.sub_y, Vec2.add_y, Vec2.smul_y]
    field_simp
    ring

/-- C3 (amended): the chain-pull phase alone does bound the distance: with
a non-negative chain length, immediately after `chainPull` the ball is at
most `chain_len` away from the character (the pull only ever reduces the
excess).  The subsequent character integration of the same controller step
can exceed the bound again, as the counterexample shows. -/
theorem chainPull_bounds_distance (p : Player) (h : 0 ≤ p.chain_len) :
    (p.chainPull.ball.pos - p.chainPull.character.pos).len ≤ p.chain_len := by
  unfold Player.chainPull
  dsimp only
  by_cases hd : (p.ball.pos - p.character.pos).len > p.chain_len
  · rw [if_pos hd]
    dsimp only
    have hlen : 0 < (p.ball.pos - p.character.pos).len := lt_of_le_of_lt h hd
    rw [sub_add_excess_smul _ _ _ (ne_of_gt hlen), Vec2.len_smul,
      abs_of_nonneg (div_nonneg h (le_of_lt hlen)), div_mul_cancel₀ _ (ne_of_gt hlen)]
  · rw [if_neg hd]
    exact le_of_not_lt hd

/-- Witness for C3's amended theorem. -/
theorem chainPull_bounds_distance_w :
    (0 : ℝ) ≤ (⟨⟨⟨0, 0⟩, ⟨0, 0⟩, 1, false⟩, ⟨⟨5, 0⟩, ⟨0, 0⟩, 1/2, false⟩, false, 1⟩ :
        Player).chain_len ∧
    ((⟨⟨⟨0, 0⟩, ⟨0, 0⟩, 1, false⟩, ⟨⟨5, 0⟩, ⟨0, 0⟩, 1/2, false⟩, false, 1⟩ :
        Player).chainPull.ball.pos -
      (⟨⟨⟨0, 0⟩, ⟨0, 0⟩, 1, false⟩, ⟨⟨5, 0⟩, ⟨0, 0⟩, 1/2, false⟩, false, 1⟩ :
        Player).chainPull.character.pos).len ≤
      (⟨⟨⟨0, 0⟩, ⟨0, 0⟩, 1, false⟩, ⟨⟨5, 0⟩, ⟨0, 0⟩, 1/2, false⟩, false, 1⟩ :
        Player).chain_len :=
  ⟨by norm_num, chainPull_bounds_distance _ (by norm_num)⟩

/-- Counterexample to C3 as stated: one full controller step on a released
player whose character moves fast leaves the ball–character distance `3`,
far above `chain_len + 1 = 2` (so above `L + ε` for any small `ε`): the
character's own integration runs after the chain pull and re-stretches the
chain. -/
theorem chain_bound_cex :
    (⟨⟨⟨0, 0⟩, ⟨300, 0⟩, 1, false⟩, ⟨⟨0, 0⟩, ⟨0, 0⟩, 1/2, false⟩, false, 1⟩ :
        Player).chain_len = 1 ∧
    ((Player.update
        ⟨⟨⟨0, 0⟩, ⟨300, 0⟩, 1, false⟩, ⟨⟨0, 0⟩, ⟨0, 0⟩, 1/2, false⟩, false, 1⟩ [] (1/100)).ball.pos -
      (Player.update
        ⟨⟨⟨0, 0⟩, ⟨300, 0⟩, 1, false⟩, ⟨⟨0, 0⟩, ⟨0, 0⟩, 1/2, false⟩, false, 1⟩ []
          (1/100)).character.pos).len > 1 + 1 := by
  have hupd : Player.update
      ⟨⟨⟨0, 0⟩, ⟨300, 0⟩, 1, false⟩, ⟨⟨0, 0⟩, ⟨0, 0⟩, 1/2, false⟩, false, 1⟩ [] (1/100) =
      ⟨⟨⟨3, -1/200⟩, ⟨300, -1/2⟩, 1, false⟩, ⟨⟨0, -1/200⟩, ⟨0, -1/2⟩, 1/2, false⟩, false, 1⟩ := by
    simp only [Player.update, Ball.update, Player.chainPull, List.foldl]
    norm_num [GRAVITY, sqrt_inv_forty_thousand, sqrt_forty_thousand]
  rw [hupd]
  norm_num [sqrt_nine]

@[simp] lemma chainPull_ball (p : Player) : p.chainPull.ball = p.ball := by
  unfold Player.chainPull; dsimp only; split_ifs <;> rfl

@[simp] lemma chainPull_ball_in_hands (p : Player) :
    p.chainPull.ball_in_hands = p.ball_in_hands := by
  unfold Player.chainPull; dsimp only; split_ifs <;> rfl

@[simp] lemma chainPull_chain_len (p : Player) : p.chainPull.chain_len = p.chain_len := by
  unfold Player.chainPull; dsimp only; split_ifs <;> rfl

lemma resolveSegment_stand_mono (b : Ball) (seg : Segment) (h : b.stand = true) :
    (b.resolveSegment seg).stand = true := by
  unfold Ball.resolveSegment
  cases hc : b.collide seg with
  | none => exact h
  | some c =>
    dsimp only
    split_ifs <;> simp [h]

lemma foldl_resolve_stand_mono (level : List Segment) (b : Ball) (h : b.stand = true) :
    (level.foldl Ball.resolveSegment b).stand = true := by
  induction level generalizing b with
  | nil => exact h
  | cons seg rest ih => exact ih _ (resolveSegment_stand_mono _ _ h)

/-- C5 (amended): the grounded flag persists across integrator steps: a
grounded body stays grounded after `Ball::update` whatever the level and
time step (no per-step recomputation); the flag is cleared only by the
explicit release transition (which also lowers the held flag) and by
reset. -/
theorem stand_persists (b : Ball) (level : List Segment) (dt : ℝ) (hb : b.stand = true) :
    (b.update level dt).stand = true ∧
    ∀ s : Game, s.player.ball_in_hands = true →
      (s.applyIntent .mouseUpLeft).player.ball.stand = false ∧
      (s.applyIntent .mouseUpLeft).player.ball_in_hands = false := by
  constructor
  · unfold Ball.update
    rw [if_neg (by simp [hb])]
    exact foldl_resolve_stand_mono _ _ hb
  · intro s hs
    unfold Game.applyIntent
    dsimp only
    rw [if_pos hs]
    exact ⟨rfl, rfl⟩

/-- Witness for C5's amended theorem. -/
theorem stand_persists_w :
    (⟨⟨0, 10⟩, ⟨0, 0⟩, 1, true⟩ : Ball).stand = true ∧
    (Ball.update ⟨⟨0, 10⟩, ⟨0, 0⟩, 1, true⟩ [] 1).stand = true ∧
    (Game.applyIntent ⟨0, ⟨⟨⟨0, 0⟩, ⟨0, 0⟩, 1, false⟩, ⟨⟨0, 0⟩, ⟨1, 2⟩, 1/2, true⟩, true, 1⟩,
        none, [], true⟩ .mouseUpLeft).player.ball.stand = false :=
  ⟨rfl, (stand_persists ⟨⟨0, 10⟩, ⟨0, 0⟩, 1, true⟩ [] 1 rfl).1,
    ((stand_persists ⟨⟨0, 10⟩, ⟨0, 0⟩, 1, true⟩ [] 1 rfl).2 _ rfl).1⟩

/-- Counterexample to C5 as stated: a grounded body integrated for one step
against an empty level (hence with no qualifying contact this step) is
still grounded afterwards — the flag is not recomputed from this step's
contact normals. -/
theorem stand_not_recomputed_cex :
    (Ball.update ⟨⟨0, 10⟩, ⟨0, 0⟩, 1/2, true⟩ [] (1/100)).stand = true := rfl

lemma update_released_ball_in_hands (p : Player) (lvl : List Segment) (d : ℝ)
    (h0 : p.ball_in_hands = false) :
    (p.update lvl d).ball_in_hands =
      if (p.ball.update lvl d).stand = true ∧ p.chain_len - 5 * d < 0.1 then true
      else false := by
  unfold Player.update
  rw [if_neg (by simp [h0])]
  dsimp only
  split_ifs with h1 h2 h3 <;> simp_all

lemma update_released_chain_len (p : Player) (lvl : List Segment) (d : ℝ)
    (h0 : p.ball_in_hands = false) :
    (p.update lvl d).chain_len =
      if (p.ball.update lvl d).stand = true then
        (if p.chain_len - 5 * d < 0.1 then (0.1 : ℝ) else p.chain_len - 5 * d)
      else p.chain_len := by
  unfold Player.update
  rw [if_neg (by simp [h0])]
  dsimp only
  split_ifs with h1 h2 <;> simp_all

lemma update_flips_held (p : Player) (lvl : List Segment) (d : ℝ)
    (h0 : p.ball_in_hands = false) (h1 : (p.update lvl d).ball_in_hands = true) :
    (p.ball.update lvl d).stand = true ∧ (p.update lvl d).chain_len = 0.1 ∧
      p.chain_len - 5 * d < 0.1 := by
  rw [update_released_ball_in_hands p lvl d h0] at h1
  split_ifs at h1 with hc
  exact ⟨hc.1, by rw [update_released_chain_len p lvl d h0, if_pos hc.1, if_pos hc.2], hc.2⟩

lemma iterate_flip (f : Player → Player) (p : Player) (n : ℕ)
    (h0 : p.ball_in_hands = false) (h1 : (f^[n] p).ball_in_hands = true) :
    ∃ k < n, (f^[k] p).ball_in_hands = false ∧ (f (f^[k] p)).ball_in_hands = true := by
  induction n with
  | zero =>
    rw [Function.iterate_zero_apply, h0] at h1
    exact absurd h1 (by simp)
  | succ m ih =>
    cases hm : (f^[m] p).ball_in_hands with
    | true =>
      obtain ⟨k, hk, hres⟩ := ih hm
      exact ⟨k, Nat.lt_succ_of_lt hk, hres⟩
    | false =>
      refine ⟨m, Nat.lt_succ_self m, hm, ?_⟩
      rw [Function.iterate_succ_apply'] at h1
      exact h1

/-- C4 (amended): the held flag goes from false to true only through the
auto-retrieval path of the sub-step update (released ball grounded and the
chain length reaching its 0.1 floor), through an explicit reset intent, or
through a load intent restoring a held snapshot; no other modelled
operation (other intents, the draw pass) ever raises it. -/
theorem held_raised_only_by (s : Game) :
    (∀ i : Intent, s.player.ball_in_hands = false →
      (s.applyIntent i).player.ball_in_hands = true → i = Intent.keyR ∨ i = Intent.keyL)
    ∧ (s.draw.player.ball_in_hands = s.player.ball_in_hands)
    ∧ (∀ (dt : ℝ) (ks : Bool), s.player.ball_in_hands = false →
        (s.update dt ks).player.ball_in_hands = true →
        ∃ k < STEPS,
          (s.substeppedPlayer dt ks k).ball_in_hands = false ∧
          (Player.update (s.substeppedPlayer dt ks k) s.level
            (dt / (STEPS : ℝ))).ball_in_hands = true ∧
          ((s.substeppedPlayer dt ks k).ball.update s.level
            (dt / (STEPS : ℝ))).stand = true ∧
          (Player.update (s.substeppedPlayer dt ks k) s.level
            (dt / (STEPS : ℝ))).chain_len = 0.1) := by
  refine ⟨?_, ?_, ?_⟩
  · intro i h0 h1
    cases i
    case keyR => exact Or.inl rfl
    case keyL => exact Or.inr rfl
    all_goals simp_all [Game.applyIntent]
  · unfold Game.draw
    split_ifs <;> rfl
  · intro dt ks h0 h1
    have hdef : ∀ n : ℕ, s.substeppedPlayer dt ks n =
        (fun p => Player.update p s.level (dt / (STEPS : ℝ)))^[n]
          (if ks = true then
            { s.player with chain_len := max (s.player.chain_len - 2 * dt) 0.05 }
           else s.player) := fun n => rfl
    have heta : ({ s with time := s.time + dt } : Game).substeppedPlayer dt ks STEPS
        = s.substeppedPlayer dt ks STEPS := by
      unfold Game.substeppedPlayer
      rfl
    have hiter : (s.update dt ks).player.ball_in_hands =
        (s.substeppedPlayer dt ks STEPS).ball_in_hands := by
      unfold Game.update
      dsimp only
      rw [heta]
      generalize s.substeppedPlayer dt ks STEPS = q
      split_ifs <;> rfl
    obtain ⟨k, hk, hfalse, htrue⟩ :=
      iterate_flip (fun p => Player.update p s.level (dt / (STEPS : ℝ)))
        (if ks = true then
          { s.player with chain_len := max (s.player.chain_len - 2 * dt) 0.05 }
         else s.player) STEPS
        (by split_ifs <;> exact h0)
        (by rw [← hdef STEPS, ← hiter]; exact h1)
    rw [← hdef k] at hfalse
    simp only at htrue
    rw [← hdef k] at htrue
    obtain ⟨hstand, hchain, _⟩ := update_flips_held _ _ _ hfalse htrue
    exact ⟨k, hk, hfalse, htrue, hstand, hchain⟩

/-- Witness for C4's amended theorem: the reset intent raising held. -/
theorem held_raised_only_by_w :
    (⟨0, ⟨⟨⟨0, 0⟩, ⟨0, 0⟩, 1, false⟩, ⟨⟨0, 0⟩, ⟨0, 0⟩, 1/2, false⟩, false, 1⟩, none, [], false⟩ :
        Game).player.ball_in_hands = false ∧
    ((⟨0, ⟨⟨⟨0, 0⟩, ⟨0, 0⟩, 1, false⟩, ⟨⟨0, 0⟩, ⟨0, 0⟩, 1/2, false⟩, false, 1⟩, none, [], false⟩ :
        Game).applyIntent .keyR).player.ball_in_hands = true ∧
    (Intent.keyR = Intent.keyR ∨ Intent.keyR = Intent.keyL) :=
  ⟨rfl, rfl,
    (held_raised_only_by
      ⟨0, ⟨⟨⟨0, 0⟩, ⟨0, 0⟩, 1, false⟩, ⟨⟨0, 0⟩, ⟨0, 0⟩, 1/2, false⟩, false, 1⟩,
        none, [], false⟩).1 .keyR rfl rfl⟩

/-- Counterexample to C4 as stated: a load intent restoring a held snapshot
raises the held flag from false to true, yet it is neither the
auto-retrieval path nor the reset intent. -/
theorem held_via_load_cex :
    (⟨0, ⟨⟨⟨0, 0⟩, ⟨0, 0⟩, 1, false⟩, ⟨⟨0, 0⟩, ⟨0, 0⟩, 1/2, false⟩, false, 1⟩,
        some Player.new, [], false⟩ : Game).player.ball_in_hands = false ∧
    ((⟨0, ⟨⟨⟨0, 0⟩, ⟨0, 0⟩, 1, false⟩, ⟨⟨0, 0⟩, ⟨0, 0⟩, 1/2, false⟩, false, 1⟩,
        some Player.new, [], false⟩ : Game).applyIntent .keyL).player.ball_in_hands = true ∧
    Intent.keyL ≠ Intent.keyR :=
  ⟨rfl, rfl, by simp⟩

/-- C8: a save intent immediately followed by a load intent leaves the
current player state equal to the player state at the moment of the save
(the save slot holds an independent copy, value-semantically). -/
theorem save_then_load_restores (s : Game) :
    ((s.applyIntent .keyP).applyIntent .keyL).player = s.player ∧
    (s.applyIntent .keyP).save = some s.player :=
  ⟨rfl, rfl⟩

/-- C9: while held, one controller step forces the ball's position to the
character's (pre-step) position plus `0.8 · normalize(ball.vel)`, and the
controller leaves the ball's velocity (and the held flag) unchanged. -/
theorem held_step_ball (p : Player) (lvl : List Segment) (dt : ℝ)
    (h : p.ball_in_hands = true) :
    (p.update lvl dt).ball.pos =
      p.character.pos + BALL_SWING_DISTANCE • p.ball.vel.normalize ∧
    (p.update lvl dt).ball.vel = p.ball.vel ∧
    (p.update lvl dt).ball_in_hands = true := by
  unfold Player.update
  rw [if_pos h]
  exact ⟨rfl, rfl, h⟩

/-- Witness for C9 at a concrete held player. -/
theorem held_step_ball_w :
    (⟨⟨⟨1, 2⟩, ⟨0, 0⟩, 1, false⟩, ⟨⟨9, 9⟩, ⟨3, 4⟩, 1/2, false⟩, true, 1⟩ :
        Player).ball_in_hands = true ∧
    (Player.update
        ⟨⟨⟨1, 2⟩, ⟨0, 0⟩, 1, false⟩, ⟨⟨9, 9⟩, ⟨3, 4⟩, 1/2, false⟩, true, 1⟩ [] 1).ball.pos =
      (⟨⟨⟨1, 2⟩, ⟨0, 0⟩, 1, false⟩, ⟨⟨9, 9⟩, ⟨3, 4⟩, 1/2, false⟩, true, 1⟩ :
        Player).character.pos + BALL_SWING_DISTANCE •
        (⟨⟨⟨1, 2⟩, ⟨0, 0⟩, 1, false⟩, ⟨⟨9, 9⟩, ⟨3, 4⟩, 1/2, false⟩, true, 1⟩ :
          Player).ball.vel.normalize ∧
    (Player.update
        ⟨⟨⟨1, 2⟩, ⟨0, 0⟩, 1, false⟩, ⟨⟨9, 9⟩, ⟨3, 4⟩, 1/2, false⟩, true, 1⟩ [] 1).ball.vel =
      (⟨⟨⟨1, 2⟩, ⟨0, 0⟩, 1, false⟩, ⟨⟨9, 9⟩, ⟨3, 4⟩, 1/2, false⟩, true, 1⟩ :
        Player).ball.vel :=
  ⟨rfl,
    (held_step_ball ⟨⟨⟨1, 2⟩, ⟨0, 0⟩, 1, false⟩, ⟨⟨9, 9⟩, ⟨3, 4⟩, 1/2, false⟩, true, 1⟩
      [] 1 rfl).1,
    (held_step_ball ⟨⟨⟨1, 2⟩, ⟨0, 0⟩, 1, false⟩, ⟨⟨9, 9⟩, ⟨3, 4⟩, 1/2, false⟩, true, 1⟩
      [] 1 rfl).2.1⟩

/-- C10: an end-swing (mouse-up) intent received while the ball is already
released still sets the chain length to 2.0 and changes nothing else in the
player state: character body, ball body (velocity unrotated, grounded flag
kept) and held flag are all unchanged. -/
theorem mouseup_while_released (s : Game) (h : s.player.ball_in_hands = false) :
    ((s.applyIntent .mouseUpLeft).player.character = s.player.character) ∧
    ((s.applyIntent .mouseUpLeft).player.ball = s.player.ball) ∧
    ((s.applyIntent .mouseUpLeft).player.ball_in_hands = false) ∧
    ((s.applyIntent .mouseUpLeft).player.chain_len = 2) := by
  unfold Game.applyIntent
  dsimp only
  rw [if_neg (by simp [h])]
  exact ⟨rfl, rfl, h, rfl⟩

/-- Witness for C10 at a concrete released player. -/
theorem mouseup_while_released_w :
    (⟨0, ⟨⟨⟨1, 2⟩, ⟨3, 4⟩, 1, true⟩, ⟨⟨5, 6⟩, ⟨7, 8⟩, 1/2, true⟩, false, 9⟩, none, [], true⟩ :
        Game).player.ball_in_hands = false ∧
    ((⟨0, ⟨⟨⟨1, 2⟩, ⟨3, 4⟩, 1, true⟩, ⟨⟨5, 6⟩, ⟨7, 8⟩, 1/2, true⟩, false, 9⟩, none, [], true⟩ :
        Game).applyIntent .mouseUpLeft).player.ball =
      (⟨0, ⟨⟨⟨1, 2⟩, ⟨3, 4⟩, 1, true⟩, ⟨⟨5, 6⟩, ⟨7, 8⟩, 1/2, true⟩, false, 9⟩, none, [], true⟩ :
        Game).player.ball ∧
    ((⟨0, ⟨⟨⟨1, 2⟩, ⟨3, 4⟩, 1, true⟩, ⟨⟨5, 6⟩, ⟨7, 8⟩, 1/2, true⟩, false, 9⟩, none, [], true⟩ :
        Game).applyIntent .mouseUpLeft).player.chain_len = 2 :=
  ⟨rfl,
    (mouseup_while_released
      ⟨0, ⟨⟨⟨1, 2⟩, ⟨3, 4⟩, 1, true⟩, ⟨⟨5, 6⟩, ⟨7, 8⟩, 1/2, true⟩, false, 9⟩, none, [], true⟩
      rfl).2.1,
    (mouseup_while_released
      ⟨0, ⟨⟨⟨1, 2⟩, ⟨3, 4⟩, 1, true⟩, ⟨⟨5, 6⟩, ⟨7, 8⟩, 1/2, true⟩, false, 9⟩, none, [], true⟩
      rfl).2.2.2⟩

lemma sqrt_six_hundred_twenty_five : Real.sqrt 625 = 25 :=
  sqrt_num_eval (by norm_num) (by norm_num)

lemma update_held_eq (p : Player) (lvl : List Segment) (d : ℝ)
    (h : p.ball_in_hands = true) :
    p.update lvl d =
      { character := p.character.update lvl d,
        ball := { p.ball with
          pos := p.character.pos + BALL_SWING_DISTANCE • p.ball.vel.normalize },
        ball_in_hands := p.ball_in_hands,
        chain_len := p.chain_len } := by
  unfold Player.update
  rw [if_pos h]

lemma held_iterate (lvl : List Segment) (d : ℝ) (p : Player)
    (h : p.ball_in_hands = true) (k : ℕ) :
    ((fun q => Player.update q lvl d)^[k] p).ball_in_hands = true ∧
    ((fun q => Player.update q lvl d)^[k] p).ball.vel = p.ball.vel ∧
    ((fun q => Player.update q lvl d)^[k] p).character =
      (fun c => Ball.update c lvl d)^[k] p.character ∧
    (∀ m : ℕ, k = m + 1 →
      ((fun q => Player.update q lvl d)^[k] p).ball.pos =
        ((fun c => Ball.update c lvl d)^[m] p.character).pos +
          BALL_SWING_DISTANCE • p.ball.vel.normalize) := by
  induction k with
  | zero =>
    exact ⟨h, rfl, rfl, fun m hm => absurd hm (Nat.succ_ne_zero m).symm⟩
  | succ n ih =>
    obtain ⟨ih1, ih2, ih3, _⟩ := ih
    have hstep : (fun q => Player.update q lvl d)^[n + 1] p
        = Player.update ((fun q => Player.update q lvl d)^[n] p) lvl d := by
      rw [Function.iterate_succ_apply']
    refine ⟨?_, ?_, ?_, ?_⟩
    · rw [hstep, update_held_eq _ _ _ ih1]
      exact ih1
    · rw [hstep, update_held_eq _ _ _ ih1]
      exact ih2
    · rw [hstep, update_held_eq _ _ _ ih1]
      dsimp only
      rw [ih3, Function.iterate_succ_apply']
    · intro m hm
      have hmn : m = n := by omega
      subst hmn
      rw [hstep, update_held_eq _ _ _ ih1]
      dsimp only
      rw [ih2, ih3]

lemma game_update_held_player (s : Game) (dt : ℝ) (ks : Bool)
    (h : (s.substeppedPlayer dt ks STEPS).ball_in_hands = true) :
    (s.update dt ks).player =
      { s.substeppedPlayer dt ks STEPS with
        ball := { (s.substeppedPlayer dt ks STEPS).ball with
          vel := Vec2.rotated ⟨25, 0⟩ ((s.time + dt) * 15) } } := by
  unfold Game.update
  dsimp only
  have heta : ({ s with time := s.time + dt } : Game).substeppedPlayer dt ks STEPS
      = s.substeppedPlayer dt ks STEPS := by
    unfold Game.substeppedPlayer
    rfl
  rw [heta]
  generalize hq : s.substeppedPlayer dt ks STEPS = q at h ⊢
  rw [if_pos h]

/-- C7 (amended): while held, the driver writes the swing velocity of
magnitude 25 rotated by `(time + dt) * 15` only AFTER the fixed sub-steps
of the frame: the frame ends with that velocity in the ball, but the ball's
position produced by the sub-steps still uses the PREVIOUS frame's velocity
direction (`normalize` of the pre-frame ball velocity). -/
theorem swing_velocity_written_after_substeps (s : Game) (dt : ℝ) (ks : Bool)
    (h : s.player.ball_in_hands = true) :
    (s.update dt ks).player.ball.vel = Vec2.rotated ⟨25, 0⟩ ((s.time + dt) * 15) ∧
    (s.update dt ks).player.ball.pos =
      ((fun c => Ball.update c s.level (dt / (STEPS : ℝ)))^[STEPS - 1] s.player.character).pos
        + BALL_SWING_DISTANCE • s.player.ball.vel.normalize := by
  obtain ⟨hheld, hvel, hchar, hpos⟩ :=
    held_iterate s.level (dt / (STEPS : ℝ))
      (if ks = true then
        { s.player with chain_len := max (s.player.chain_len - 2 * dt) 0.05 }
       else s.player)
      (by split_ifs <;> exact h) STEPS
  have hsub : s.substeppedPlayer dt ks STEPS =
      (fun q => Player.update q s.level (dt / (STEPS : ℝ)))^[STEPS]
        (if ks = true then
          { s.player with chain_len := max (s.player.chain_len - 2 * dt) 0.05 }
         else s.player) := rfl
  have hplayer := game_update_held_player s dt ks (by rw [hsub]; exact hheld)
  have hc : (if ks = true then
      { s.player with chain_len := max (s.player.chain_len - 2 * dt) 0.05 }
     else s.player).character = s.player.character := by
    split_ifs <;> rfl
  have hb : (if ks = true then
      { s.player with chain_len := max (s.player.chain_len - 2 * dt) 0.05 }
     else s.player).ball = s.player.ball := by
    split_ifs <;> rfl
  constructor
  · rw [hplayer]
  · rw [hplayer]
    dsimp only
    rw [hsub, hpos (STEPS - 1) (by decide), hc, hb]

/-- Witness for C7's amended theorem at a concrete held state. -/
theorem swing_velocity_written_after_substeps_w :
    (⟨0, ⟨⟨⟨3, 4⟩, ⟨0, 0⟩, 1, true⟩, ⟨⟨19/5, 4⟩, ⟨1, 0⟩, 1/2, false⟩, true, 1⟩, none, [],
        false⟩ : Game).player.ball_in_hands = true ∧
    (Game.update ⟨0, ⟨⟨⟨3, 4⟩, ⟨0, 0⟩, 1, true⟩, ⟨⟨19/5, 4⟩, ⟨1, 0⟩, 1/2, false⟩, true, 1⟩,
        none, [], false⟩ 1 false).player.ball.vel =
      Vec2.rotated ⟨25, 0⟩
        (((⟨0, ⟨⟨⟨3, 4⟩, ⟨0, 0⟩, 1, true⟩, ⟨⟨19/5, 4⟩, ⟨1, 0⟩, 1/2, false⟩, true, 1⟩, none, [],
          false⟩ : Game).time + 1) * 15) :=
  ⟨rfl,
    (swing_velocity_written_after_substeps
      ⟨0, ⟨⟨⟨3, 4⟩, ⟨0, 0⟩, 1, true⟩, ⟨⟨19/5, 4⟩, ⟨1, 0⟩, 1/2, false⟩, true, 1⟩, none, [],
        false⟩ 1 false rfl).1⟩

/-- Counterexample to C7 as stated: over one frame from time 0 with
`dt = π/30` (so the post-frame swing angle is `π/2`), a held ball with
pre-frame velocity `(1, 0)` ends the frame at position `(19/5, 4)` — the
offset `0.8 · (1, 0)` from the character given by the OLD velocity — and
with new velocity `(0, 25)`; had the velocity been written before the
sub-steps, the final position would have been `(3, 4) + 0.8 · (0, 1)`,
which differs. -/
theorem swing_write_order_cex :
    (Game.update ⟨0, ⟨⟨⟨3, 4⟩, ⟨0, 0⟩, 1, true⟩, ⟨⟨19/5, 4⟩, ⟨1, 0⟩, 1/2, false⟩, true, 1⟩,
        none, [], false⟩ (Real.pi / 30) false).player.ball.vel = ⟨0, 25⟩ ∧
    (Game.update ⟨0, ⟨⟨⟨3, 4⟩, ⟨0, 0⟩, 1, true⟩, ⟨⟨19/5, 4⟩, ⟨1, 0⟩, 1/2, false⟩, true, 1⟩,
        none, [], false⟩ (Real.pi / 30) false).player.ball.pos = ⟨19/5, 4⟩ ∧
    ((⟨19/5, 4⟩ : Vec2) ≠
      (⟨3, 4⟩ : Vec2) + BALL_SWING_DISTANCE • Vec2.normalize ⟨0, 25⟩) := by
  have hfix : Player.update
      ⟨⟨⟨3, 4⟩, ⟨0, 0⟩, 1, true⟩, ⟨⟨19/5, 4⟩, ⟨1, 0⟩, 1/2, false⟩, true, 1⟩ []
        (Real.pi / 30 / (STEPS : ℝ)) =
      ⟨⟨⟨3, 4⟩, ⟨0, 0⟩, 1, true⟩, ⟨⟨19/5, 4⟩, ⟨1, 0⟩, 1/2, false⟩, true, 1⟩ := by
    simp only [Player.update, Ball.update, List.foldl]
    norm_num [BALL_SWING_DISTANCE, Real.sqrt_one]
  have hsub0 : (⟨0, ⟨⟨⟨3, 4⟩, ⟨0, 0⟩, 1, true⟩, ⟨⟨19/5, 4⟩, ⟨1, 0⟩, 1/2, false⟩, true, 1⟩,
      none, [], false⟩ : Game).substeppedPlayer (Real.pi / 30) false STEPS =
      ⟨⟨⟨3, 4⟩, ⟨0, 0⟩, 1, true⟩, ⟨⟨19/5, 4⟩, ⟨1, 0⟩, 1/2, false⟩, true, 1⟩ := by
    unfold Game.substeppedPlayer
    rw [if_neg (by simp)]
    exact Function.iterate_fixed hfix STEPS
  have hplayer := game_update_held_player
    ⟨0, ⟨⟨⟨3, 4⟩, ⟨0, 0⟩, 1, true⟩, ⟨⟨19/5, 4⟩, ⟨1, 0⟩, 1/2, false⟩, true, 1⟩, none, [],
      false⟩ (Real.pi / 30) false (by rw [hsub0])
  have harg : (((⟨0, ⟨⟨⟨3, 4⟩, ⟨0, 0⟩, 1, true⟩, ⟨⟨19/5, 4⟩, ⟨1, 0⟩, 1/2, false⟩, true, 1⟩,
      none, [], false⟩ : Game).time + Real.pi / 30) * 15) = Real.pi / 2 := by
    show ((0 : ℝ) + Real.pi / 30) * 15 = Real.pi / 2
    ring
  refine ⟨?_, ?_, ?_⟩
  · rw [hplayer]
    show Vec2.rotated ⟨25, 0⟩ _ = _
    rw [harg]
    norm_num
  · rw [hplayer]
    dsimp only
    rw [hsub0]
  · intro hcontra
    rw [Vec2.ext_iff] at hcontra
    have hx := hcontra.1
    rw [show ((⟨3, 4⟩ : Vec2) + BALL_SWING_DISTANCE • Vec2.normalize ⟨0, 25⟩).x
        = 3 + 0.8 * (0 / Real.sqrt (0 ^ 2 + 25 ^ 2)) from rfl] at hx
    norm_num at hx
